import Mathlib

/-!
# Verification of the modbus-webserial protocol engine

A shallow embedding of the repository's protocol core:

* `src/core/crc16.ts` — the Modbus CRC-16 engine,
* `src/core/errors.ts` — the error taxonomy (CRC, timeout, exception),
* `src/core/frames.ts` — frame builders and parsers,
* `src/client.ts` — the data paths of the client façade read helpers,
* the Web Serial transport's `transact` (single-read version in the source).

Byte sequences are modelled as `List Nat`; a store into a `Uint8Array`
truncates modulo 256, and a read at an out-of-range index yields
`undefined`, which every arithmetic context in the parser coerces to `0`
(that is what `idx` implements, with `Int` indices so that negative
indices also read as `0`).
-/

set_option maxRecDepth 10000

namespace ModbusWS

/-! ## CRC engine (`src/core/crc16.ts`) -/

/-- One round of the inner loop of `crc16`:
`crc = (crc >> 1) ^ ((crc & 1) ? 0xA001 : 0)`. -/
def crcRound (crc : Nat) : Nat :=
  (crc >>> 1) ^^^ (cond (crc &&& 1 != 0) 0xA001 0)

/-- Processing of a single input byte by `crc16`: xor the byte into the
register, then run the eight shift rounds of the inner `for` loop. -/
def crcByteStep (crc b : Nat) : Nat :=
  crcRound (crcRound (crcRound (crcRound (crcRound (crcRound (crcRound (crcRound (crc ^^^ b))))))))

/-- `crc16` from `src/core/crc16.ts`: seed `0xFFFF`, reflected polynomial
`0xA001`, one `crcByteStep` per input byte. -/
def crc16 (buf : List Nat) : Nat :=
  buf.foldl crcByteStep 0xffff

/-- Feeding the two little-endian register bytes of `c` back into the CRC
starting from register `c`; the residue invariant says this is `0`. -/
def crcFeedback (c : Nat) : Nat :=
  crcByteStep (crcByteStep c (c % 256)) (c / 256)

theorem xor_left_comm (a b c : Nat) : a ^^^ (b ^^^ c) = b ^^^ (a ^^^ c) := by
  rw [← Nat.xor_assoc, Nat.xor_comm a b, Nat.xor_assoc]

theorem crcRound_xor (a b : Nat) : crcRound (a ^^^ b) = crcRound a ^^^ crcRound b := by
  unfold crcRound
  have hshift : (a ^^^ b) >>> 1 = a >>> 1 ^^^ b >>> 1 := by
    simpa [Nat.shiftRight_succ, Nat.shiftRight_zero] using @Nat.xor_div_two a b
  have hand : (a ^^^ b) &&& 1 = (a &&& 1) ^^^ (b &&& 1) := Nat.and_xor_distrib_right
  rw [hshift, hand, Nat.and_one_is_mod, Nat.and_one_is_mod]
  rcases Nat.mod_two_eq_zero_or_one a with ha | ha <;>
    rcases Nat.mod_two_eq_zero_or_one b with hb | hb <;>
      simp [ha, hb, Nat.xor_assoc, Nat.xor_comm, xor_left_comm]

theorem crcByteStep_xor (a b c d : Nat) :
    crcByteStep (a ^^^ b) (c ^^^ d) = crcByteStep a c ^^^ crcByteStep b d := by
  unfold crcByteStep
  have h : (a ^^^ b) ^^^ (c ^^^ d) = (a ^^^ c) ^^^ (b ^^^ d) := by
    simp [Nat.xor_assoc, Nat.xor_comm, xor_left_comm]
  rw [h]
  simp only [crcRound_xor]

theorem xor_mod_two_pow (a b k : Nat) : (a ^^^ b) % 2 ^ k = a % 2 ^ k ^^^ b % 2 ^ k := by
  apply Nat.eq_of_testBit_eq
  intro i
  simp only [Nat.testBit_mod_two_pow, Nat.testBit_xor]
  by_cases h : i < k <;> simp [h]

theorem xor_mod_256 (a b : Nat) : (a ^^^ b) % 256 = a % 256 ^^^ b % 256 := by
  have h := xor_mod_two_pow a b 8
  norm_num at h
  exact h

theorem xor_div_256 (a b : Nat) : (a ^^^ b) / 256 = a / 256 ^^^ b / 256 := by
  have h8 : ∀ x : Nat, x / 256 = x >>> 8 := by
    intro x
    simp [Nat.shiftRight_eq_div_pow]
  rw [h8, h8, h8]
  apply Nat.eq_of_testBit_eq
  intro i
  simp [Nat.testBit_shiftRight, Nat.testBit_xor]

theorem crcFeedback_xor (a b : Nat) : crcFeedback (a ^^^ b) = crcFeedback a ^^^ crcFeedback b := by
  unfold crcFeedback
  rw [xor_mod_256, xor_div_256, crcByteStep_xor, crcByteStep_xor]

theorem crcFeedback_basis : ∀ k, k < 16 → crcFeedback (2 ^ k) = 0 := by decide

theorem crcFeedback_zero_lo : crcFeedback 0 = 0 := by decide

/-- The finite core of the CRC residue invariant: feeding the two
little-endian bytes of the register back into the register zeroes it.
Proved by xor-linearity of `crcFeedback` from the 16 one-bit register
values. -/
theorem crcFeedback_zero (c : Nat) (hc : c < 65536) : crcFeedback c = 0 := by
  induction c using Nat.strong_induction_on with
  | _ c ih =>
    rcases Nat.eq_zero_or_pos c with h0 | hpos
    · subst h0; exact crcFeedback_zero_lo
    · have hne : c ≠ 0 := Nat.pos_iff_ne_zero.mp hpos
      set i := Nat.log2 c with hi
      have hle : 2 ^ i ≤ c := Nat.log2_self_le hne
      have hlt : c < 2 ^ (i + 1) := Nat.lt_log2_self
      have hbit : c.testBit i = true := by
        rw [Nat.testBit_to_div_mod]
        have : c / 2 ^ i = 1 := by
          apply Nat.div_eq_of_lt_le
          · simpa using hle
          · calc c < 2 ^ (i + 1) := hlt
              _ = 2 * 2 ^ i := by ring
        simp [this]
      have hi16 : i < 16 := by
        by_contra hge
        push_neg at hge
        have : (2 : Nat) ^ 16 ≤ 2 ^ i := Nat.pow_le_pow_right (by norm_num) hge
        omega
      set d := c ^^^ 2 ^ i with hd
      have hdlt : d < 2 ^ i := by
        apply Nat.lt_pow_two_of_testBit
        intro j hj
        rcases Nat.eq_or_lt_of_le hj with hji | hji
        · rw [hd, Nat.testBit_xor, ← hji, hbit, Nat.testBit_two_pow_self]
          rfl
        · rw [hd, Nat.testBit_xor, Nat.testBit_two_pow_of_ne (Nat.ne_of_lt hji)]
          have : c < 2 ^ j := by
            calc c < 2 ^ (i + 1) := hlt
              _ ≤ 2 ^ j := Nat.pow_le_pow_right (by norm_num) hji
          rw [Nat.testBit_lt_two_pow this]
          rfl
      have hdc : d < c := Nat.lt_of_lt_of_le hdlt hle
      have hsplit : c = 2 ^ i ^^^ d := by
        rw [hd, ← Nat.xor_assoc, Nat.xor_comm (2 ^ i) c, Nat.xor_assoc, Nat.xor_self,
          Nat.xor_zero]
      rw [hsplit, crcFeedback_xor, crcFeedback_basis i hi16, ih d hdc (by omega),
        Nat.xor_zero]

theorem crcRound_lt {c : Nat} (hc : c < 65536) : crcRound c < 65536 := by
  have h16 : (65536 : Nat) = 2 ^ 16 := by norm_num
  have h1 : c >>> 1 ≤ c := by
    simp only [Nat.shiftRight_succ, Nat.shiftRight_zero]
    exact Nat.div_le_self c 2
  have h2 : c >>> 1 < 65536 := Nat.lt_of_le_of_lt h1 hc
  have h3 : (cond (c &&& 1 != 0) 0xA001 0) < 65536 := by
    cases (c &&& 1 != 0) <;> norm_num
  unfold crcRound
  rw [h16] at h2 h3 ⊢
  exact Nat.xor_lt_two_pow h2 h3

theorem crcByteStep_lt {c b : Nat} (hc : c < 65536) (hb : b < 256) :
    crcByteStep c b < 65536 := by
  have hx : c ^^^ b < 65536 := by
    have h16 : (65536 : Nat) = 2 ^ 16 := by norm_num
    rw [h16] at hc ⊢
    exact Nat.xor_lt_two_pow hc (by omega)
  unfold crcByteStep
  exact crcRound_lt (crcRound_lt (crcRound_lt (crcRound_lt
    (crcRound_lt (crcRound_lt (crcRound_lt (crcRound_lt hx)))))))

theorem foldl_crcByteStep_lt :
    ∀ (l : List Nat) (c : Nat), c < 65536 → (∀ b ∈ l, b < 256) →
      l.foldl crcByteStep c < 65536 := by
  intro l
  induction l with
  | nil => intro c hc _; simpa using hc
  | cons a t ih =>
    intro c hc hl
    rw [List.foldl_cons]
    exact ih _ (crcByteStep_lt hc (hl a (by simp))) fun b hb => hl b (by simp [hb])

/-- The CRC register stays a 16-bit value on any byte input. -/
theorem crc16_lt (buf : List Nat) (h : ∀ b ∈ buf, b < 256) : crc16 buf < 65536 :=
  foldl_crcByteStep_lt buf 0xffff (by norm_num) h

/-- Sanity vector from the repository's test suite:
`crc16([0x01, 0x03, 0x00, 0x00, 0x00, 0x0A]) = 0xCDC5`. -/
example : crc16 [0x01, 0x03, 0x00, 0x00, 0x00, 0x0A] = 0xCDC5 := by decide

/-- C2: for every byte sequence `B`, appending the little-endian two-byte
encoding of `crc16 B` (low byte `crc &&& 0xff` first, then high byte
`crc >>> 8`, exactly as the builders emit it) yields a sequence whose CRC
is zero. -/
theorem crc16_append_crc_eq_zero (B : List Nat) (hB : ∀ b ∈ B, b < 256) :
    crc16 (B ++ [crc16 B &&& 0xff, crc16 B >>> 8]) = 0 := by
  have hlt : crc16 B < 65536 := crc16_lt B hB
  have e1 : crc16 B &&& 0xff = crc16 B % 256 := by
    have h := Nat.and_pow_two_sub_one_eq_mod (crc16 B) 8
    norm_num at h
    exact h
  have e2 : crc16 B >>> 8 = crc16 B / 256 := by
    have h := Nat.shiftRight_eq_div_pow (crc16 B) 8
    norm_num at h
    exact h
  have happ : crc16 (B ++ [crc16 B &&& 0xff, crc16 B >>> 8])
      = crcByteStep (crcByteStep (crc16 B) (crc16 B &&& 0xff)) (crc16 B >>> 8) := by
    rw [crc16, List.foldl_append]
    rfl
  rw [happ, e1, e2]
  exact crcFeedback_zero (crc16 B) hlt

/-- Witness for C2 at the concrete byte sequence `[1, 2]`. -/
theorem crc16_append_crc_eq_zero_witness :
    crc16 ([1, 2] ++ [crc16 [1, 2] &&& 0xff, crc16 [1, 2] >>> 8]) = 0 :=
  crc16_append_crc_eq_zero [1, 2] (by decide)

/-! ## Byte-array access

`idx frame i` models a JavaScript read `frame[i]` in an arithmetic
context: an out-of-range (or negative) index yields `undefined`, which
`|`, `&`, `<<` and `Boolean(... & ...)` all treat as `0`. -/

def idx (frame : List Nat) (i : Int) : Nat :=
  if i < 0 then 0 else frame.getD i.toNat 0

/-! ## Error taxonomy (`src/core/errors.ts`) -/

/-- Failures raised by frame builders (`throw new Error(msg)` on argument
validation; the spec calls this kind `InvalidArgument`). -/
inductive BuildError where
  | invalidArgument (msg : String)
deriving DecidableEq

/-- Failures raised by the parsers' shared preamble: `CrcError`,
`ExceptionError code`, and the generic `Error('Unexpected function code')`. -/
inductive ParseError where
  | crc
  | exception (code : Nat)
  | unexpectedFunctionCode
deriving DecidableEq

/-- The message carried by `ExceptionError` (`src/core/errors.ts`,
`EXCEPTION_MESSAGES[code] ?? ...`): the lookup table, with a generic
hex rendering (`code.toString(16)`, lowercase, unpadded) as fallback. -/
def exceptionMessage (code : Nat) : String :=
  match code with
  | 0x01 => "Illegal Function"
  | 0x02 => "Illegal Data Address"
  | 0x03 => "Illegal Data Value"
  | 0x04 => "Slave Device Failure"
  | 0x05 => "Acknowledge"
  | 0x06 => "Slaver Device Busy"
  | 0x08 => "Memory Parity Error"
  | 0x0A => "Gateway Path Unavailable"
  | 0x0B => "Gateway Target Device Failed to Respond"
  | _ => "Modbus exception 0x" ++ String.mk (Nat.toDigits 16 code)

/-! ## Function-code constants (`src/core/types.ts`) -/

def FC_READ_COILS : Nat := 0x01
def FC_READ_DISCRETE_INPUTS : Nat := 0x02
def FC_READ_HOLDING_REGISTERS : Nat := 0x03
def FC_READ_INPUT_REGISTERS : Nat := 0x04
def FC_WRITE_SINGLE_COIL : Nat := 0x05
def FC_WRITE_SINGLE_HOLDING_REGISTER : Nat := 0x06
def FC_WRITE_MULTIPLE_COILS : Nat := 0x0F
def FC_WRITE_MULTIPLE_HOLDING_REGISTERS : Nat := 0x10

/-! ## Frame builders (`src/core/frames.ts`)

Each builder fills a `Uint8Array`; every store truncates modulo 256.
The CRC trailer is the low byte first, then the high byte. -/

/-- `buildReadHolding(id, addr, len)` — FC 03 request. The source performs
no validation here (no quantity or unit-id check). -/
def buildReadHolding (id addr len : Nat) : List Nat :=
  let body := [id % 256, FC_READ_HOLDING_REGISTERS, (addr >>> 8) % 256, addr &&& 0xff,
    (len >>> 8) % 256, len &&& 0xff]
  let crc := crc16 body
  body ++ [crc &&& 0xff, (crc >>> 8) % 256]

/-- `buildWriteSingle(id, addr, value)` — FC 06 request. No validation in
the source. -/
def buildWriteSingle (id addr value : Nat) : List Nat :=
  let body := [id % 256, FC_WRITE_SINGLE_HOLDING_REGISTER, (addr >>> 8) % 256, addr &&& 0xff,
    (value >>> 8) % 256, value &&& 0xff]
  let crc := crc16 body
  body ++ [crc &&& 0xff, (crc >>> 8) % 256]

/-- `buildReadCoils(id, addr, qty)` — FC 01 request; rejects `qty` outside
`1..=2000`. -/
def buildReadCoils (id addr qty : Nat) : Except BuildError (List Nat) :=
  if qty < 1 ∨ qty > 2000 then .error (.invalidArgument "Invalid coil quantity")
  else
    let body := [id % 256, FC_READ_COILS, (addr >>> 8) % 256, addr &&& 0xff,
      (qty >>> 8) % 256, qty &&& 0xff]
    let crc := crc16 body
    .ok (body ++ [crc &&& 0xff, (crc >>> 8) % 256])

/-- `buildReadDiscreteInputs(id, addr, qty)` — FC 02 request; rejects `qty`
outside `1..=2000`. -/
def buildReadDiscreteInputs (id addr qty : Nat) : Except BuildError (List Nat) :=
  if qty < 1 ∨ qty > 2000 then .error (.invalidArgument "Invalid discrete-input quantity")
  else
    let body := [id % 256, FC_READ_DISCRETE_INPUTS, (addr >>> 8) % 256, addr &&& 0xff,
      (qty >>> 8) % 256, qty &&& 0xff]
    let crc := crc16 body
    .ok (body ++ [crc &&& 0xff, (crc >>> 8) % 256])

/-- `buildReadInputRegisters(id, addr, qty)` — FC 04 request; rejects `qty`
outside `1..=125`. -/
def buildReadInputRegisters (id addr qty : Nat) : Except BuildError (List Nat) :=
  if qty < 1 ∨ qty > 125 then .error (.invalidArgument "Invalid register quantity")
  else
    let body := [id % 256, FC_READ_INPUT_REGISTERS, (addr >>> 8) % 256, addr &&& 0xff,
      (qty >>> 8) % 256, qty &&& 0xff]
    let crc := crc16 body
    .ok (body ++ [crc &&& 0xff, (crc >>> 8) % 256])

/-- `buildWriteMultiple(id, addr, values)` — FC 16 (0x10) request; rejects a
register count outside `1..=123`. -/
def buildWriteMultiple (id addr : Nat) (values : List Nat) : Except BuildError (List Nat) :=
  let qty := values.length
  if qty < 1 ∨ qty > 123 then .error (.invalidArgument "Invalid number of registers")
  else
    let byteCount := qty * 2
    let data := values.flatMap fun v => [((v &&& 0xffff) >>> 8) % 256, (v &&& 0xffff) &&& 0xff]
    let body := [id % 256, FC_WRITE_MULTIPLE_HOLDING_REGISTERS, (addr >>> 8) % 256,
      addr &&& 0xff, (qty >>> 8) % 256, qty &&& 0xff, byteCount % 256] ++ data
    let crc := crc16 body
    .ok (body ++ [crc &&& 0xff, (crc >>> 8) % 256])

/-- One iteration of the coil-packing loop in `buildWriteMultipleCoils`:
`if (values[i]) frame[7 + (i >> 3)] |= 1 << (i & 7)`. -/
def packCoilStep (values : List Bool) (bytes : List Nat) (i : Nat) : List Nat :=
  if values.getD i false then
    bytes.set (i >>> 3) ((bytes.getD (i >>> 3) 0 ||| (1 <<< (i &&& 7))) % 256)
  else bytes

/-- The data bytes produced by the coil-packing loop: `byteCount` zero
bytes, OR-ing in bit `i % 8` of byte `i / 8` for every set coil `i`. -/
def packCoilBits (values : List Bool) (byteCount : Nat) : List Nat :=
  (List.range values.length).foldl (packCoilStep values) (List.replicate byteCount 0)

/-- `buildWriteMultipleCoils(id, addr, values)` — FC 15 (0x0F) request;
rejects a coil count outside `1..=1968`; packs coil bits LSB-first. -/
def buildWriteMultipleCoils (id addr : Nat) (values : List Bool) :
    Except BuildError (List Nat) :=
  let qty := values.length
  if qty < 1 ∨ qty > 1968 then .error (.invalidArgument "Invalid coil quantity")
  else
    let byteCount := (qty + 7) / 8
    let data := packCoilBits values byteCount
    let body := [id % 256, FC_WRITE_MULTIPLE_COILS, (addr >>> 8) % 256, addr &&& 0xff,
      (qty >>> 8) % 256, qty &&& 0xff, byteCount % 256] ++ data
    let crc := crc16 body
    .ok (body ++ [crc &&& 0xff, (crc >>> 8) % 256])

/-! ## Frame parsers (`src/core/frames.ts`) -/

/-- `basicChecks(frame, expectedFC)`: CRC over all but the two trailer
bytes against the little-endian trailer, then the exception bit, then the
masked function code. Returns the raised error, or `none` if all checks
pass. -/
def basicChecks (frame : List Nat) (expectedFC : Nat) : Option ParseError :=
  let len : Int := frame.length
  let crcExpected := crc16 (frame.take (frame.length - 2))
  let crcGot := idx frame (len - 2) ||| (idx frame (len - 1) <<< 8)
  if crcExpected ≠ crcGot then some .crc
  else if idx frame 1 &&& 0x80 ≠ 0 then some (.exception (idx frame 2))
  else if idx frame 1 &&& 0x7f ≠ expectedFC then some .unexpectedFunctionCode
  else none

/-- The bit list built by the loop body of `_parseBits`: for each of the
`frame[2]` data bytes, eight booleans LSB-first
(`Boolean(byte & (1 << j))`). -/
def bitsPayload (frame : List Nat) : List Bool :=
  (List.range (idx frame 2)).flatMap fun i =>
    (List.range 8).map fun j => (idx frame (3 + (i : Int)) &&& (1 <<< j)) != 0

/-- `_parseBits(expectedFC)(frame)`: shared decoder for FC 01 / FC 02
replies. -/
def parseBits (expectedFC : Nat) (frame : List Nat) : Except ParseError (List Bool) :=
  match basicChecks frame expectedFC with
  | some e => .error e
  | none => .ok (bitsPayload frame)

/-- `parseReadCoils = _parseBits(FC_READ_COILS)`. -/
def parseReadCoils : List Nat → Except ParseError (List Bool) :=
  parseBits FC_READ_COILS

/-- `parseReadDiscreteInputs = _parseBits(FC_READ_DISCRETE_INPUTS)`. -/
def parseReadDiscreteInputs : List Nat → Except ParseError (List Bool) :=
  parseBits FC_READ_DISCRETE_INPUTS

/-- The `{ address, value }` record returned by `parseWriteSingle`. -/
structure WriteSingleResult where
  address : Nat
  value : Nat
deriving DecidableEq

/-- `parseWriteSingle(resp)` — FC 06 echo decoder:
`addr = (resp[2] << 8) | resp[3]`, `value = (resp[4] << 8) | resp[5]`. -/
def parseWriteSingle (resp : List Nat) : Except ParseError WriteSingleResult :=
  match basicChecks resp FC_WRITE_SINGLE_HOLDING_REGISTER with
  | some e => .error e
  | none => .ok ⟨(idx resp 2 <<< 8) ||| idx resp 3, (idx resp 4 <<< 8) ||| idx resp 5⟩

/-! ## Client façade data paths (`src/client.ts`) -/

/-- The `data` field computed by `ModbusRTU.readCoils` from the raw reply
returned by `transact`: the parser output, not trimmed to the requested
quantity. -/
def readCoilsData (raw : List Nat) : Except ParseError (List Bool) :=
  parseReadCoils raw

/-- The `data` field computed by `ModbusRTU.readDiscreteInputs`: the parser
output trimmed to the requested quantity (`full.slice(0, qty)`). -/
def readDiscreteInputsData (raw : List Nat) (qty : Nat) : Except ParseError (List Bool) :=
  (parseReadDiscreteInputs raw).map fun full => full.take qty

/-! ## Web Serial transport (`src/transport/webserial.ts`, single-read
version present in the source) -/

inductive TransportError where
  | timeout
deriving DecidableEq

/-- `WebSerialTransport.transact(frame)` as implemented in the source:
write the request, race a single `reader.read()` against the timeout, and
return whatever chunk that one read yielded (`TimeoutError` if the source
is exhausted). There is no receive buffer, no reassembly and no
function-code matching in this implementation. -/
def transact (_request : List Nat) (chunks : List (List Nat)) :
    Except TransportError (List Nat) :=
  match chunks with
  | [] => .error .timeout
  | c :: _ => .ok c

/-- A well-formed reply frame as produced by a Modbus server (and by the
test helpers `buildResponse` / `withCRC`): the body followed by its CRC,
low byte first. -/
def mkReply (body : List Nat) : List Nat :=
  body ++ [crc16 body &&& 0xff, crc16 body >>> 8]

/-! ## Arithmetic bridges between the bitwise source idiom and `Nat` -/

theorem and_255_eq_mod (x : Nat) : x &&& 255 = x % 256 := by
  have h := Nat.and_pow_two_sub_one_eq_mod x 8
  norm_num at h
  exact h

theorem shiftRight8_eq_div (x : Nat) : x >>> 8 = x / 256 := by
  have h := Nat.shiftRight_eq_div_pow x 8
  norm_num at h
  exact h

theorem and_255_lt (x : Nat) : x &&& 255 < 256 := by
  have h : x &&& 255 < 2 ^ 8 := Nat.and_lt_two_pow x (by norm_num)
  norm_num at h
  exact h

/-- Recombining a high part shifted left by 8 with a low byte:
`(a << 8) | b = a * 256 + b` when `b` is a byte. -/
theorem shiftLeft8_or (a b : Nat) (hb : b < 256) : (a <<< 8) ||| b = a * 256 + b := by
  apply Nat.eq_of_testBit_eq
  intro i
  rw [Nat.testBit_or, Nat.testBit_shiftLeft]
  have h : a * 256 + b = 2 ^ 8 * a + b := by ring
  rw [h, Nat.testBit_mul_pow_two_add a (by omega : b < 2 ^ 8) i]
  by_cases hi : i < 8
  · simp [hi, show ¬ (8 ≤ i) by omega]
  · have h8 : 8 ≤ i := by omega
    have hb' : b.testBit i = false := by
      apply Nat.testBit_lt_two_pow
      calc b < 256 := hb
        _ = 2 ^ 8 := by norm_num
        _ ≤ 2 ^ i := Nat.pow_le_pow_right (by norm_num) h8
    simp [h8, hi, hb']

/-- Reassembling a 16-bit value from its little-endian byte pair, in the
exact shape the parser computes the received CRC:
`(c & 0xff) | ((c >> 8) << 8) = c`. -/
theorem lo_or_hi8 (c : Nat) : (c &&& 0xff) ||| ((c >>> 8) <<< 8) = c := by
  rw [Nat.lor_comm, shiftLeft8_or _ _ (and_255_lt c), and_255_eq_mod, shiftRight8_eq_div]
  omega

/-! ## The parser preamble on CRC-correct frames -/

theorem idx_nat (l : List Nat) (n : Nat) : idx l (n : Int) = l.getD n 0 := by
  simp [idx]

/-- On a frame consisting of a body followed by its little-endian CRC
trailer, the CRC comparison of `basicChecks` succeeds, so the outcome is
decided by the function-code byte alone. -/
theorem basicChecks_mkReply (body : List Nat) (fc : Nat) :
    basicChecks (mkReply body) fc =
      (if idx (mkReply body) 1 &&& 0x80 ≠ 0 then some (.exception (idx (mkReply body) 2))
       else if idx (mkReply body) 1 &&& 0x7f ≠ fc then some .unexpectedFunctionCode
       else none) := by
  have hlen : (mkReply body).length = body.length + 2 := by
    simp [mkReply]
  have htake : (mkReply body).take ((mkReply body).length - 2) = body := by
    rw [hlen]
    simpa [mkReply] using List.take_left' rfl
  have hlo : idx (mkReply body) ((mkReply body).length - 2 : Nat) = crc16 body &&& 0xff := by
    rw [idx_nat, hlen]
    simp [mkReply, List.getD, List.getElem?_append_right, List.getElem_append_right]
  have hhi : idx (mkReply body) ((mkReply body).length - 1 : Nat) = crc16 body >>> 8 := by
    rw [idx_nat, hlen]
    simp [mkReply, List.getD, List.getElem?_append_right, List.getElem_append_right]
  have hcast2 : ((mkReply body).length : Int) - 2 = (((mkReply body).length - 2 : Nat) : Int) := by
    rw [hlen]
    push_cast
    ring
  have hcast1 : ((mkReply body).length : Int) - 1 = (((mkReply body).length - 1 : Nat) : Int) := by
    rw [hlen]
    push_cast
    ring
  rw [basicChecks]
  rw [hcast2, hcast1, hlo, hhi, htake, lo_or_hi8]
  simp

/-- The function-code byte of a reply whose body starts `unit :: fc :: _`. -/
theorem idx_one_cons (unit fc : Nat) (rest : List Nat) :
    idx (mkReply (unit :: fc :: rest)) 1 = fc := by
  have h : ((1 : Int)) = ((1 : Nat) : Int) := by norm_num
  rw [h, idx_nat]
  simp [mkReply]

theorem idx_two_cons (unit fc n : Nat) (rest : List Nat) :
    idx (mkReply (unit :: fc :: n :: rest)) 2 = n := by
  have h : ((2 : Int)) = ((2 : Nat) : Int) := by norm_num
  rw [h, idx_nat]
  simp [mkReply]

/-- For a body of genuine bytes the CRC register is 16-bit, so the
truncating store of its high byte is the identity and the builder frames
coincide with `mkReply` of their body. -/
theorem crc_hi_mod (body : List Nat) (h : ∀ b ∈ body, b < 256) :
    (crc16 body >>> 8) % 256 = crc16 body >>> 8 := by
  apply Nat.mod_eq_of_lt
  rw [shiftRight8_eq_div]
  have := crc16_lt body h
  omega

/-! Evaluation of `idx` at small literal indices on cons cells. -/

theorem idx_cons_0 (a : Nat) (t : List Nat) : idx (a :: t) 0 = a := by
  simp [idx]

theorem idx_cons_1 (a b : Nat) (t : List Nat) : idx (a :: b :: t) 1 = b := by
  simp [idx]

theorem idx_cons_2 (a b c : Nat) (t : List Nat) : idx (a :: b :: c :: t) 2 = c := by
  simp [idx]

theorem idx_cons_3 (a b c d : Nat) (t : List Nat) : idx (a :: b :: c :: d :: t) 3 = d := by
  simp [idx]

theorem idx_cons_4 (a b c d e : Nat) (t : List Nat) :
    idx (a :: b :: c :: d :: e :: t) 4 = e := by
  simp [idx]

theorem idx_cons_5 (a b c d e f : Nat) (t : List Nat) :
    idx (a :: b :: c :: d :: e :: f :: t) 5 = f := by
  simp [idx]

/-- Reassembling `x ≤ 0xFFFF` from the two bytes a builder stores for it. -/
theorem recompose_word (x : Nat) (hx : x ≤ 0xFFFF) :
    (((x >>> 8) % 256) <<< 8) ||| (x &&& 0xff) = x := by
  have hx8 : (x >>> 8) % 256 = x >>> 8 := by
    rw [shiftRight8_eq_div]
    exact Nat.mod_eq_of_lt (by omega)
  rw [hx8, shiftLeft8_or _ _ (and_255_lt x), and_255_eq_mod, shiftRight8_eq_div]
  omega

/-- C6: for every unit id in `1..=247`, address and value in `0..=0xFFFF`,
`parseWriteSingle (buildWriteSingle id addr value)` succeeds and returns
`{ address := addr, value := value }` — the FC 06 echo round-trip. -/
theorem parseWriteSingle_buildWriteSingle (id addr value : Nat)
    (hid1 : 1 ≤ id) (hid2 : id ≤ 247) (haddr : addr ≤ 0xFFFF) (hvalue : value ≤ 0xFFFF) :
    parseWriteSingle (buildWriteSingle id addr value) = .ok ⟨addr, value⟩ := by
  have hbytes : ∀ b ∈ [id % 256, FC_WRITE_SINGLE_HOLDING_REGISTER, (addr >>> 8) % 256,
      addr &&& 0xff, (value >>> 8) % 256, value &&& 0xff], b < 256 := by
    intro b hb
    have h255 := and_255_lt addr
    have h255v := and_255_lt value
    simp [FC_WRITE_SINGLE_HOLDING_REGISTER] at hb
    rcases hb with h | h | h | h | h | h <;> subst h <;> first
      | assumption
      | exact Nat.mod_lt _ (by omega)
      | norm_num
  have hframe : buildWriteSingle id addr value
      = mkReply [id % 256, FC_WRITE_SINGLE_HOLDING_REGISTER, (addr >>> 8) % 256,
          addr &&& 0xff, (value >>> 8) % 256, value &&& 0xff] := by
    rw [buildWriteSingle, mkReply, crc_hi_mod _ hbytes]
  rw [hframe, parseWriteSingle, basicChecks_mkReply, idx_one_cons]
  rw [if_neg (by decide), if_neg (by decide)]
  have hcons : mkReply [id % 256, FC_WRITE_SINGLE_HOLDING_REGISTER, (addr >>> 8) % 256,
      addr &&& 0xff, (value >>> 8) % 256, value &&& 0xff]
      = (id % 256) :: FC_WRITE_SINGLE_HOLDING_REGISTER :: ((addr >>> 8) % 256)
        :: (addr &&& 0xff) :: ((value >>> 8) % 256) :: (value &&& 0xff)
        :: [crc16 [id % 256, FC_WRITE_SINGLE_HOLDING_REGISTER, (addr >>> 8) % 256,
              addr &&& 0xff, (value >>> 8) % 256, value &&& 0xff] &&& 0xff,
            crc16 [id % 256, FC_WRITE_SINGLE_HOLDING_REGISTER, (addr >>> 8) % 256,
              addr &&& 0xff, (value >>> 8) % 256, value &&& 0xff] >>> 8] := by
    simp [mkReply]
  rw [hcons, idx_cons_2, idx_cons_3, idx_cons_4, idx_cons_5]
  rw [recompose_word addr haddr, recompose_word value hvalue]

/-- Witness for C6 at `id = 1`, `addr = 3`, `value = 7`. -/
theorem parseWriteSingle_buildWriteSingle_witness :
    parseWriteSingle (buildWriteSingle 1 3 7) = .ok ⟨3, 7⟩ :=
  parseWriteSingle_buildWriteSingle 1 3 7 (by decide) (by decide) (by decide) (by decide)

/-- C1 (code bug): on the well-formed 7-byte FC 03 reply
`mkReply [1, 3, 2, 0x12, 0x34]` delivered as two chunks (first 3 bytes,
then the remaining 4), the source `transact` performs a single read and
returns only the first 3-byte chunk, not the whole frame. The
repository's own transport tests require the reassembled 7-byte frame
here. -/
theorem transact_split_frame_returns_first_chunk :
    transact (buildReadHolding 1 0 1)
        [(mkReply [1, 3, 2, 0x12, 0x34]).take 3, (mkReply [1, 3, 2, 0x12, 0x34]).drop 3]
      = .ok ((mkReply [1, 3, 2, 0x12, 0x34]).take 3)
    ∧ (mkReply [1, 3, 2, 0x12, 0x34]).take 3 ≠ mkReply [1, 3, 2, 0x12, 0x34] := by
  exact ⟨rfl, by decide⟩

/-- C3 (code bug): the CRC-valid exception frame
`[1, 0x83, 0x06, crc_lo, crc_hi]` makes the parser preamble raise
`ExceptionError` with code `0x06`, but the message table entry for `0x06`
reads `"Slaver Device Busy"` (a typo), not the spec's
`"Slave Device Busy"`. -/
theorem exception_code_six_message :
    basicChecks (mkReply [1, FC_READ_HOLDING_REGISTERS ||| 0x80, 0x06])
        FC_READ_HOLDING_REGISTERS = some (.exception 0x06)
    ∧ exceptionMessage 0x06 = "Slaver Device Busy"
    ∧ exceptionMessage 0x06 ≠ "Slave Device Busy" := by
  refine ⟨by decide, rfl, by decide⟩

/-- C4 counterexample: `buildReadHolding` performs no quantity validation;
both the claimed rejection points `qty = 0` and `qty = 126` produce a
complete 8-byte frame instead of an `InvalidArgument` error. -/
theorem buildReadHolding_no_quantity_check :
    (buildReadHolding 1 0 126).length = 8 ∧ (buildReadHolding 1 0 0).length = 8 := by
  exact ⟨by decide, by decide⟩

/-- The quantity check of `buildWriteMultipleCoils`, separated from the
frame payload. -/
theorem buildWriteMultipleCoils_reject (id addr : Nat) (values : List Bool)
    (h : values.length < 1 ∨ values.length > 1968) :
    buildWriteMultipleCoils id addr values = .error (.invalidArgument "Invalid coil quantity") := by
  rw [buildWriteMultipleCoils, if_pos h]

theorem buildWriteMultipleCoils_accept (id addr : Nat) (values : List Bool)
    (h1 : 1 ≤ values.length) (h2 : values.length ≤ 1968) :
    (buildWriteMultipleCoils id addr values).isOk = true := by
  rw [buildWriteMultipleCoils, if_neg (by omega)]
  rfl

/-- The register-count check of `buildWriteMultiple`, separated from the
frame payload. -/
theorem buildWriteMultiple_reject (id addr : Nat) (values : List Nat)
    (h : values.length < 1 ∨ values.length > 123) :
    buildWriteMultiple id addr values
      = .error (.invalidArgument "Invalid number of registers") := by
  rw [buildWriteMultiple, if_pos h]

theorem buildWriteMultiple_accept (id addr : Nat) (values : List Nat)
    (h1 : 1 ≤ values.length) (h2 : values.length ≤ 123) :
    (buildWriteMultiple id addr values).isOk = true := by
  rw [buildWriteMultiple, if_neg (by omega)]
  rfl

/-- C4 amended: the validating builders reject exactly the boundary
quantities `0` and `max + 1` of their per-FC limits (read coils /
discrete inputs 2000, read input registers 125, write multiple coils
1968, write multiple registers 123) and accept `1` and `max`;
`buildReadHolding` has no quantity check at all and produces an 8-byte
frame even at `0` and `126`. -/
theorem builders_quantity_boundaries (id addr : Nat) :
    buildReadCoils id addr 0 = .error (.invalidArgument "Invalid coil quantity")
    ∧ buildReadCoils id addr 2001 = .error (.invalidArgument "Invalid coil quantity")
    ∧ (buildReadCoils id addr 1).isOk = true
    ∧ (buildReadCoils id addr 2000).isOk = true
    ∧ buildReadDiscreteInputs id addr 0
        = .error (.invalidArgument "Invalid discrete-input quantity")
    ∧ buildReadDiscreteInputs id addr 2001
        = .error (.invalidArgument "Invalid discrete-input quantity")
    ∧ (buildReadDiscreteInputs id addr 1).isOk = true
    ∧ (buildReadDiscreteInputs id addr 2000).isOk = true
    ∧ buildReadInputRegisters id addr 0 = .error (.invalidArgument "Invalid register quantity")
    ∧ buildReadInputRegisters id addr 126 = .error (.invalidArgument "Invalid register quantity")
    ∧ (buildReadInputRegisters id addr 1).isOk = true
    ∧ (buildReadInputRegisters id addr 125).isOk = true
    ∧ buildWriteMultipleCoils id addr [] = .error (.invalidArgument "Invalid coil quantity")
    ∧ buildWriteMultipleCoils id addr (List.replicate 1969 false)
        = .error (.invalidArgument "Invalid coil quantity")
    ∧ (buildWriteMultipleCoils id addr [false]).isOk = true
    ∧ (buildWriteMultipleCoils id addr (List.replicate 1968 false)).isOk = true
    ∧ buildWriteMultiple id addr [] = .error (.invalidArgument "Invalid number of registers")
    ∧ buildWriteMultiple id addr (List.replicate 124 0)
        = .error (.invalidArgument "Invalid number of registers")
    ∧ (buildWriteMultiple id addr [0]).isOk = true
    ∧ (buildWriteMultiple id addr (List.replicate 123 0)).isOk = true
    ∧ (buildReadHolding id addr 0).length = 8
    ∧ (buildReadHolding id addr 126).length = 8 := by
  have lrep : ∀ (n : Nat), (List.replicate n false).length = n := fun n => List.length_replicate n false
  have lrepN : ∀ (n : Nat), (List.replicate n (0 : Nat)).length = n :=
    fun n => List.length_replicate n 0
  refine ⟨?_, ?_, ?_, ?_, ?_, ?_, ?_, ?_, ?_, ?_, ?_, ?_, ?_, ?_, ?_, ?_, ?_, ?_, ?_, ?_,
    ?_, ?_⟩
  · rw [buildReadCoils, if_pos (by omega)]
  · rw [buildReadCoils, if_pos (by omega)]
  · rw [buildReadCoils, if_neg (by omega)]
    rfl
  · rw [buildReadCoils, if_neg (by omega)]
    rfl
  · rw [buildReadDiscreteInputs, if_pos (by omega)]
  · rw [buildReadDiscreteInputs, if_pos (by omega)]
  · rw [buildReadDiscreteInputs, if_neg (by omega)]
    rfl
  · rw [buildReadDiscreteInputs, if_neg (by omega)]
    rfl
  · rw [buildReadInputRegisters, if_pos (by omega)]
  · rw [buildReadInputRegisters, if_pos (by omega)]
  · rw [buildReadInputRegisters, if_neg (by omega)]
    rfl
  · rw [buildReadInputRegisters, if_neg (by omega)]
    rfl
  · exact buildWriteMultipleCoils_reject id addr [] (by simp)
  · exact buildWriteMultipleCoils_reject id addr _ (by rw [lrep]; omega)
  · exact buildWriteMultipleCoils_accept id addr [false] (by simp) (by simp)
  · exact buildWriteMultipleCoils_accept id addr _ (by rw [lrep]; omega) (by rw [lrep])
  · exact buildWriteMultiple_reject id addr [] (by simp)
  · exact buildWriteMultiple_reject id addr _ (by rw [lrepN]; omega)
  · exact buildWriteMultiple_accept id addr [0] (by simp) (by simp)
  · exact buildWriteMultiple_accept id addr _ (by rw [lrepN]; omega) (by rw [lrepN])
  · rw [buildReadHolding]
    rfl
  · rw [buildReadHolding]
    rfl

/-- C8 counterexample: unit ids outside `1..=247` are not rejected —
`buildWriteSingle` with unit id `0` and `248` produces a frame, and
`buildReadCoils` with unit id `0` succeeds. -/
theorem builders_no_unit_id_check :
    (buildWriteSingle 0 0 0).length = 8
    ∧ (buildWriteSingle 248 0 0).getD 0 0 = 248
    ∧ (buildReadCoils 0 0 1).isOk = true := by
  refine ⟨by decide, by decide, by decide⟩

/-- C8 amended: no frame builder validates the unit id; for every `id`
(with otherwise valid arguments) each builder produces a frame whose
first byte is `id` truncated modulo 256. -/
theorem builders_accept_any_unit_id (id addr value qty : Nat) (coils : List Bool)
    (regs : List Nat) (hq1 : 1 ≤ qty) (hq2 : qty ≤ 125)
    (hc1 : 1 ≤ coils.length) (hc2 : coils.length ≤ 1968)
    (hr1 : 1 ≤ regs.length) (hr2 : regs.length ≤ 123) :
    (buildWriteSingle id addr value).length = 8
    ∧ (buildWriteSingle id addr value).getD 0 0 = id % 256
    ∧ (buildReadHolding id addr value).length = 8
    ∧ (buildReadHolding id addr value).getD 0 0 = id % 256
    ∧ (buildReadCoils id addr qty).map (fun frame => frame.getD 0 0) = .ok (id % 256)
    ∧ (buildReadDiscreteInputs id addr qty).map (fun frame => frame.getD 0 0) = .ok (id % 256)
    ∧ (buildReadInputRegisters id addr qty).map (fun frame => frame.getD 0 0) = .ok (id % 256)
    ∧ (buildWriteMultipleCoils id addr coils).map (fun frame => frame.getD 0 0) = .ok (id % 256)
    ∧ (buildWriteMultiple id addr regs).map (fun frame => frame.getD 0 0) = .ok (id % 256) := by
  refine ⟨?_, ?_, ?_, ?_, ?_, ?_, ?_, ?_, ?_⟩
  · simp [buildWriteSingle]
  · simp [buildWriteSingle, List.getD]
  · simp [buildReadHolding]
  · simp [buildReadHolding, List.getD]
  · rw [buildReadCoils, if_neg (by omega)]
    rfl
  · rw [buildReadDiscreteInputs, if_neg (by omega)]
    rfl
  · rw [buildReadInputRegisters, if_neg (by omega)]
    rfl
  · rw [buildWriteMultipleCoils, if_neg (by omega)]
    rfl
  · rw [buildWriteMultiple, if_neg (by omega)]
    rfl

/-- Witness for the amended C8: unit id `248` (outside `1..=247`) is
accepted by every builder, with `248` stored as the first frame byte. -/
theorem builders_accept_any_unit_id_witness :
    (buildWriteSingle 248 0 0).length = 8
    ∧ (buildWriteSingle 248 0 0).getD 0 0 = 248
    ∧ (buildReadHolding 248 0 0).length = 8
    ∧ (buildReadHolding 248 0 0).getD 0 0 = 248
    ∧ (buildReadCoils 248 0 1).map (fun frame => frame.getD 0 0) = .ok 248
    ∧ (buildReadDiscreteInputs 248 0 1).map (fun frame => frame.getD 0 0) = .ok 248
    ∧ (buildReadInputRegisters 248 0 1).map (fun frame => frame.getD 0 0) = .ok 248
    ∧ (buildWriteMultipleCoils 248 0 [false]).map (fun frame => frame.getD 0 0) = .ok 248
    ∧ (buildWriteMultiple 248 0 [0]).map (fun frame => frame.getD 0 0) = .ok 248 :=
  builders_accept_any_unit_id 248 0 0 1 [false] [0] (by decide) (by decide) (by decide)
    (by decide) (by decide) (by decide)

/-- C9 counterexample: the frame `[0x01]`, shorter than the minimum length
of any FC 03 reply, is rejected with a `Crc` error — not with a
`Malformed` kind, which does not exist in the code. -/
theorem basicChecks_short_frame_crc_counterexample :
    basicChecks [0x01] FC_READ_HOLDING_REGISTERS = some .crc := by decide

/-- C9 amended: `basicChecks` has no minimum-length check and no
`Malformed` error kind; a frame of fewer than two bytes always fails the
CRC comparison and is rejected with `Crc`. -/
theorem basicChecks_short_frame (frame : List Nat) (fc : Nat) (h : frame.length < 2) :
    basicChecks frame fc = some .crc := by
  match frame, h with
  | [], _ =>
    simp [basicChecks, idx, crc16]
  | [b], _ =>
    rw [basicChecks]
    rw [if_pos]
    simp only [List.length_cons, List.length_nil]
    show crc16 (List.take (1 - 2) [b]) ≠ idx [b] ((1 : Int) - 2) ||| idx [b] ((1 : Int) - 1) <<< 8
    have h1 : idx [b] ((1 : Int) - 2) = 0 := by simp [idx]
    have h2 : idx [b] ((1 : Int) - 1) = b := by simp [idx]
    rw [h1, h2]
    show (65535 : Nat) ≠ 0 ||| b <<< 8
    rw [Nat.zero_or, Nat.shiftLeft_eq]
    omega

/-- Witness for the amended C9 at the empty frame. -/
theorem basicChecks_short_frame_witness : basicChecks [] 6 = some .crc :=
  basicChecks_short_frame [] 6 (by decide)

/-! ## The LSB-first bit decoding loop -/

/-- `Boolean(byte & (1 << j))` is exactly bit `j` of the byte. -/
theorem and_one_shiftLeft_ne_zero (x j : Nat) : ((x &&& (1 <<< j)) != 0) = x.testBit j := by
  rw [Nat.one_shiftLeft, Nat.and_two_pow]
  cases h : x.testBit j <;> simp [h, Nat.pos_iff_ne_zero.mp (Nat.two_pow_pos j)]

/-- Length of a flat map producing one 8-entry block per element. -/
theorem blocks_length (l : List Nat) (g : Nat → Nat → Bool) :
    (l.flatMap fun a => (List.range 8).map (g a)).length = 8 * l.length := by
  induction l with
  | nil => simp
  | cons a t ih =>
    simp only [List.flatMap_cons, List.length_append, List.length_map, List.length_range, ih,
      List.length_cons]
    ring

/-- Indexing into a flat map of 8-entry blocks: entry `8*i + j` comes from
block `i` at offset `j`. -/
theorem blocks_getElem? (l : List Nat) (g : Nat → Nat → Bool) :
    ∀ i j, i < l.length → j < 8 →
      (l.flatMap fun a => (List.range 8).map (g a))[8 * i + j]? = some (g (l.getD i 0) j) := by
  induction l with
  | nil => intro i j hi _; simp at hi
  | cons a t ih =>
    intro i j hi hj
    rw [List.flatMap_cons]
    cases i with
    | zero =>
      rw [List.getElem?_append_left (by simpa using hj)]
      simp [List.getElem?_range hj]
    | succ i =>
      have hlen : ((List.range 8).map (g a)).length = 8 := by simp
      rw [List.getElem?_append_right (by omega)]
      have hidx : 8 * (i + 1) + j - ((List.range 8).map (g a)).length = 8 * i + j := by
        rw [hlen]
        ring_nf
        omega
      rw [hidx, ih i j (by simpa using hi) hj]
      simp

theorem blocks_getD (l : List Nat) (g : Nat → Nat → Bool) (i j : Nat)
    (hi : i < l.length) (hj : j < 8) :
    (l.flatMap fun a => (List.range 8).map (g a)).getD (8 * i + j) false = g (l.getD i 0) j := by
  rw [List.getD_eq_getElem?_getD, blocks_getElem? l g i j hi hj]
  rfl

/-- The CRC comparison performed by `basicChecks`, as a predicate on the
frame: the CRC over all but the trailing two bytes equals the trailer
read little-endian. -/
def crcValid (frame : List Nat) : Prop :=
  crc16 (frame.take (frame.length - 2))
    = idx frame ((frame.length : Int) - 2) ||| (idx frame ((frame.length : Int) - 1) <<< 8)

theorem basicChecks_of_crcValid (frame : List Nat) (fc : Nat) (hcrc : crcValid frame)
    (hfc : idx frame 1 = fc) (h80 : fc &&& 0x80 = 0) (h7f : fc &&& 0x7f = fc) :
    basicChecks frame fc = none := by
  unfold crcValid at hcrc
  rw [basicChecks, hcrc]
  simp [hfc, h80, h7f]

theorem parseBits_ok_of (frame : List Nat) (fc : Nat) (h : basicChecks frame fc = none) :
    parseBits fc frame = .ok (bitsPayload frame) := by
  rw [parseBits, h]

/-- C10: on every CRC-valid FC 01 / FC 02 reply, the bit parsers succeed
and return exactly `8 * n` booleans for byte-count field `n = resp[2]`,
the boolean at index `8*i + j` being bit `j` (LSB-first) of data byte
`resp[3+i]`; the output length is a multiple of 8 and is never trimmed to
the requested quantity at the parser level. -/
theorem bit_parsers_full_bytes (frame : List Nat) (hcrc : crcValid frame) :
    (idx frame 1 = FC_READ_COILS → parseReadCoils frame = .ok (bitsPayload frame))
    ∧ (idx frame 1 = FC_READ_DISCRETE_INPUTS →
        parseReadDiscreteInputs frame = .ok (bitsPayload frame))
    ∧ (bitsPayload frame).length = 8 * idx frame 2
    ∧ (∀ i j, i < idx frame 2 → j < 8 →
        (bitsPayload frame).getD (8 * i + j) false = (idx frame (3 + (i : Int))).testBit j) := by
  refine ⟨?_, ?_, ?_, ?_⟩
  · intro h1
    exact parseBits_ok_of _ _ (basicChecks_of_crcValid _ _ hcrc h1 (by decide) (by decide))
  · intro h1
    exact parseBits_ok_of _ _ (basicChecks_of_crcValid _ _ hcrc h1 (by decide) (by decide))
  · rw [bitsPayload, blocks_length]
    simp
  · intro i j hi hj
    rw [bitsPayload,
      blocks_getD (List.range (idx frame 2)) _ i j (by simpa using hi) hj]
    have hr : (List.range (idx frame 2)).getD i 0 = i := by
      rw [List.getD_eq_getElem?_getD, List.getElem?_range hi]
      rfl
    rw [hr, and_one_shiftLeft_ne_zero]

/-- Witness for C10 on the concrete CRC-valid FC 01 reply
`mkReply [1, 1, 1, 0xA5]`. -/
theorem bit_parsers_full_bytes_witness :
    parseReadCoils (mkReply [1, 1, 1, 0xA5]) = .ok (bitsPayload (mkReply [1, 1, 1, 0xA5]))
    ∧ (bitsPayload (mkReply [1, 1, 1, 0xA5])).length = 8 * idx (mkReply [1, 1, 1, 0xA5]) 2 :=
  ⟨(bit_parsers_full_bytes (mkReply [1, 1, 1, 0xA5]) (by unfold crcValid; decide)).1 (by decide),
    (bit_parsers_full_bytes (mkReply [1, 1, 1, 0xA5]) (by unfold crcValid; decide)).2.2.1⟩

theorem parseBits_mkReply_ok (body : List Nat) (fc : Nat)
    (hfc : idx (mkReply body) 1 = fc) (h80 : fc &&& 0x80 = 0) (h7f : fc &&& 0x7f = fc) :
    parseBits fc (mkReply body) = .ok (bitsPayload (mkReply body)) := by
  rw [parseBits, basicChecks_mkReply, hfc]
  rw [if_neg (by simp [h80]), if_neg (by simp [h7f])]

/-- C5 counterexample: for requested quantity `3` and the well-formed
one-data-byte FC 01 reply `mkReply [1, 1, 1, 0x05]`, the `data` field of
`readCoils` has length `8` (the full padded byte), not the requested `3`:
the client does not trim the coil vector. `readDiscreteInputs` does trim. -/
theorem readCoils_not_trimmed :
    (readCoilsData (mkReply [1, 1, 1, 0x05])).map List.length = .ok 8
    ∧ (readDiscreteInputsData (mkReply [1, 2, 1, 0x05]) 3).map List.length = .ok 3 := by
  exact ⟨rfl, rfl⟩

/-- C5 amended: on a well-formed bit-read reply with byte count `n` and
for any requested quantity `qty ≤ 8 * n`, `readDiscreteInputs` returns
exactly `qty` booleans (padding trimmed), while `readCoils` returns the
untrimmed parser output of `8 * n` booleans — equal to `qty` only when
`qty` is a multiple of 8. -/
theorem client_read_bits_trimming (unit n qty : Nat) (data : List Nat)
    (hlen : data.length = n) (hq : qty ≤ 8 * n) :
    (readCoilsData (mkReply (unit :: FC_READ_COILS :: n :: data))).map List.length
      = .ok (8 * n)
    ∧ (readDiscreteInputsData (mkReply (unit :: FC_READ_DISCRETE_INPUTS :: n :: data)) qty).map
        List.length = .ok qty := by
  have hbp : ∀ fc' : Nat, (bitsPayload (mkReply (unit :: fc' :: n :: data))).length = 8 * n := by
    intro fc'
    rw [bitsPayload, blocks_length]
    simp [idx_two_cons]
  constructor
  · show (parseBits FC_READ_COILS (mkReply (unit :: FC_READ_COILS :: n :: data))).map
      List.length = .ok (8 * n)
    rw [parseBits_mkReply_ok _ _ (idx_one_cons _ _ _) (by decide) (by decide)]
    simp [Except.map, hbp]
  · show ((parseBits FC_READ_DISCRETE_INPUTS
        (mkReply (unit :: FC_READ_DISCRETE_INPUTS :: n :: data))).map
          (fun full => full.take qty)).map List.length = .ok qty
    rw [parseBits_mkReply_ok _ _ (idx_one_cons _ _ _) (by decide) (by decide)]
    simp [Except.map, List.length_take, hbp]
    omega

/-- Witness for the amended C5 at `unit = 1`, `n = 1`, `qty = 3`,
`data = [0x05]`. -/
theorem client_read_bits_trimming_witness :
    (readCoilsData (mkReply (1 :: FC_READ_COILS :: 1 :: [0x05]))).map List.length = .ok 8
    ∧ (readDiscreteInputsData (mkReply (1 :: FC_READ_DISCRETE_INPUTS :: 1 :: [0x05])) 3).map
        List.length = .ok 3 := by
  have h := client_read_bits_trimming 1 1 3 [0x05] (by decide) (by decide)
  exact ⟨h.1, h.2⟩

/-! ## The coil-packing loop of `buildWriteMultipleCoils` -/

theorem getD_set_self_lt (l : List Nat) (i a : Nat) (h : i < l.length) :
    (l.set i a).getD i 0 = a := by
  simp [List.getD_eq_getElem?_getD, List.getElem?_set, h]

theorem getD_set_ne (l : List Nat) (i k a : Nat) (h : i ≠ k) :
    (l.set i a).getD k 0 = l.getD k 0 := by
  simp [List.getD_eq_getElem?_getD, List.getElem?_set, h]

theorem getD_replicate_zero (n k : Nat) : (List.replicate n (0 : Nat)).getD k 0 = 0 := by
  by_cases h : k < n <;> simp [List.getD_eq_getElem?_getD, List.getElem?_replicate, h]

theorem shiftRight3_eq_div (m : Nat) : m >>> 3 = m / 8 := by
  have h := Nat.shiftRight_eq_div_pow m 3
  norm_num at h
  exact h

theorem and_7_eq_mod (m : Nat) : m &&& 7 = m % 8 := by
  have h := Nat.and_pow_two_sub_one_eq_mod m 3
  norm_num at h
  exact h

theorem range_foldl_succ (values : List Bool) (init : List Nat) (m : Nat) :
    (List.range (m + 1)).foldl (packCoilStep values) init
      = packCoilStep values ((List.range m).foldl (packCoilStep values) init) m := by
  rw [List.range_succ, List.foldl_append, List.foldl_cons, List.foldl_nil]

theorem packCoilStep_length (values : List Bool) (bytes : List Nat) (i : Nat) :
    (packCoilStep values bytes i).length = bytes.length := by
  rw [packCoilStep]
  split <;> simp

theorem foldl_packCoilStep_length (values : List Bool) :
    ∀ (l : List Nat) (init : List Nat),
      (l.foldl (packCoilStep values) init).length = init.length := by
  intro l
  induction l with
  | nil => intro init; rfl
  | cons a t ih =>
    intro init
    rw [List.foldl_cons, ih, packCoilStep_length]

theorem packCoilBits_length (values : List Bool) (bc : Nat) :
    (packCoilBits values bc).length = bc := by
  rw [packCoilBits, foldl_packCoilStep_length]
  simp

/-- Loop invariant of the packing loop: after processing coils
`0, …, m-1`, every byte is still a byte and bit `j` of byte `k` is set
exactly for the already-processed true coil at position `8*k + j`. -/
theorem packCoil_invariant (values : List Bool) (bc : Nat) (hbc : values.length ≤ 8 * bc) :
    ∀ m, m ≤ values.length →
      (∀ k, ((List.range m).foldl (packCoilStep values) (List.replicate bc 0)).getD k 0 < 256)
      ∧ (∀ k j, j < 8 →
          (((List.range m).foldl (packCoilStep values) (List.replicate bc 0)).getD k 0).testBit j
            = (decide (8 * k + j < m) && values.getD (8 * k + j) false)) := by
  intro m
  induction m with
  | zero =>
    intro _
    refine ⟨fun k => ?_, fun k j _ => ?_⟩
    · simp [getD_replicate_zero]
    · simp [getD_replicate_zero]
  | succ m ih =>
    intro hm
    obtain ⟨ihb, ihbit⟩ := ih (by omega)
    rw [range_foldl_succ]
    set B := (List.range m).foldl (packCoilStep values) (List.replicate bc 0) with hB
    have hBlen : B.length = bc := by
      rw [hB, foldl_packCoilStep_length]
      simp
    rw [packCoilStep]
    by_cases hv : values.getD m false
    · rw [if_pos hv, shiftRight3_eq_div, and_7_eq_mod]
      have hmlt : m / 8 < bc := by omega
      have hpow : (1 <<< (m % 8)) = 2 ^ (m % 8) := Nat.one_shiftLeft _
      have hlt2 : (2 : Nat) ^ (m % 8) < 2 ^ 8 := by
        have h8 : m % 8 < 8 := Nat.mod_lt _ (by norm_num)
        calc (2 : Nat) ^ (m % 8) ≤ 2 ^ 7 := Nat.pow_le_pow_right (by norm_num) (by omega)
          _ < 2 ^ 8 := by norm_num
      have e256 : (256 : Nat) = 2 ^ 8 := by norm_num
      have hx8 : B.getD (m / 8) 0 < 2 ^ 8 := by
        rw [← e256]
        exact ihb (m / 8)
      have hor : B.getD (m / 8) 0 ||| (1 <<< (m % 8)) < 256 := by
        rw [hpow, e256]
        exact Nat.or_lt_two_pow hx8 hlt2
      have hnb : (B.getD (m / 8) 0 ||| (1 <<< (m % 8))) % 256
          = B.getD (m / 8) 0 ||| (1 <<< (m % 8)) := Nat.mod_eq_of_lt hor
      refine ⟨fun k => ?_, fun k j hj => ?_⟩
      · by_cases hk : m / 8 = k
        · rw [← hk, getD_set_self_lt _ _ _ (by omega)]
          exact Nat.mod_lt _ (by omega)
        · rw [getD_set_ne _ _ _ _ hk]
          exact ihb k
      · by_cases hk : m / 8 = k
        · rw [← hk, getD_set_self_lt _ _ _ (by omega), hnb, hpow, Nat.testBit_or,
            Nat.testBit_two_pow, ihbit (m / 8) j hj]
          by_cases hjm : j = m % 8
          · subst hjm
            rw [Nat.div_add_mod, hv]
            simp
          · have hne : ¬ (m % 8 = j) := fun h => hjm h.symm
            have hiff : (8 * (m / 8) + j < m + 1) ↔ (8 * (m / 8) + j < m) := by omega
            simp [hne, hiff]
        · rw [getD_set_ne _ _ _ _ hk, ihbit k j hj]
          have hiff : (8 * k + j < m + 1) ↔ (8 * k + j < m) := by omega
          simp [hiff]
    · rw [if_neg hv]
      have hv' : values.getD m false = false := by
        revert hv
        cases values.getD m false <;> simp
      refine ⟨ihb, fun k j hj => ?_⟩
      rw [ihbit k j hj]
      by_cases he : 8 * k + j = m
      · rw [he, hv']
        simp
      · have hiff : (8 * k + j < m) ↔ (8 * k + j < m + 1) := by omega
        simp [hiff]

/-- Bit `j` of packed byte `k`: exactly coil `8*k + j` (false beyond the
requested quantity, so the unused high bits of the last byte are zero). -/
theorem packCoilBits_testBit (values : List Bool) (bc : Nat) (hbc : values.length ≤ 8 * bc)
    (k j : Nat) (hj : j < 8) :
    ((packCoilBits values bc).getD k 0).testBit j
      = (decide (8 * k + j < values.length) && values.getD (8 * k + j) false) := by
  exact (packCoil_invariant values bc hbc values.length (Nat.le_refl _)).2 k j hj

/-- The inner bit-unpacking loop of `_parseBits`, applied to a stand-alone
list of data bytes: eight booleans per byte, LSB-first
(`Boolean(byte & (1 << j))`). -/
def unpackBits (bytes : List Nat) : List Bool :=
  bytes.flatMap fun byte => (List.range 8).map fun j => (byte &&& (1 <<< j)) != 0

theorem unpackBits_length (bytes : List Nat) : (unpackBits bytes).length = 8 * bytes.length :=
  blocks_length bytes _

theorem unpackBits_getD (bytes : List Nat) (i j : Nat) (hi : i < bytes.length) (hj : j < 8) :
    (unpackBits bytes).getD (8 * i + j) false = (bytes.getD i 0).testBit j := by
  rw [unpackBits, blocks_getD bytes _ i j hi hj, and_one_shiftLeft_ne_zero]

theorem getElem?_eq_some_getD (l : List Bool) (n : Nat) (h : n < l.length) :
    l[n]? = some (l.getD n false) := by
  rw [List.getElem?_eq_getElem h, List.getD_eq_getElem?_getD, List.getElem?_eq_getElem h]
  rfl

theorem dataSlice (hdr data rest : List Nat) (bc : Nat) (h7 : hdr.length = 7)
    (hd : data.length = bc) :
    (((hdr ++ data) ++ rest).drop 7).take bc = data := by
  rw [List.append_assoc, List.drop_left' h7, List.take_left' hd]

/-- The frame produced by `buildWriteMultipleCoils` on accepted input:
7-byte header, the packed data bytes, then the CRC trailer. -/
theorem buildWriteMultipleCoils_ok_frame (id addr : Nat) (values : List Bool)
    (h1 : 1 ≤ values.length) (h2 : values.length ≤ 1968) :
    buildWriteMultipleCoils id addr values
      = .ok (([id % 256, FC_WRITE_MULTIPLE_COILS, (addr >>> 8) % 256, addr &&& 0xff,
            (values.length >>> 8) % 256, values.length &&& 0xff,
            ((values.length + 7) / 8) % 256]
          ++ packCoilBits values ((values.length + 7) / 8))
          ++ [crc16 ([id % 256, FC_WRITE_MULTIPLE_COILS, (addr >>> 8) % 256, addr &&& 0xff,
                (values.length >>> 8) % 256, values.length &&& 0xff,
                ((values.length + 7) / 8) % 256]
              ++ packCoilBits values ((values.length + 7) / 8)) &&& 0xff,
            (crc16 ([id % 256, FC_WRITE_MULTIPLE_COILS, (addr >>> 8) % 256, addr &&& 0xff,
                (values.length >>> 8) % 256, values.length &&& 0xff,
                ((values.length + 7) / 8) % 256]
              ++ packCoilBits values ((values.length + 7) / 8)) >>> 8) % 256]) := by
  rw [buildWriteMultipleCoils, if_neg (by omega)]

/-- C7: packing a non-empty boolean list of at most 1968 coils with
`buildWriteMultipleCoils` (LSB-first within each byte, unused high bits of
the last byte zero) and unpacking the frame's data bytes with the bit
parser loop returns the original list as the first `qty` booleans. -/
theorem writeMultipleCoils_roundtrip (id addr : Nat) (values : List Bool)
    (h1 : 1 ≤ values.length) (h2 : values.length ≤ 1968) :
    (buildWriteMultipleCoils id addr values).map
        (fun frame =>
          (unpackBits ((frame.drop 7).take ((values.length + 7) / 8))).take values.length)
      = .ok values := by
  rw [buildWriteMultipleCoils_ok_frame id addr values h1 h2]
  simp only [Except.map]
  congr 1
  set bc := (values.length + 7) / 8 with hbc
  have hq8 : values.length ≤ 8 * bc := by omega
  rw [dataSlice _ _ _ bc (by simp) (packCoilBits_length values bc)]
  apply List.ext_getElem?
  intro n
  by_cases hn : n < values.length
  · rw [List.getElem?_take_of_lt hn]
    have hlen : (unpackBits (packCoilBits values bc)).length = 8 * bc := by
      rw [unpackBits_length, packCoilBits_length]
    have hn8 : n < (unpackBits (packCoilBits values bc)).length := by omega
    rw [getElem?_eq_some_getD _ _ hn8, getElem?_eq_some_getD values n hn]
    congr 1
    have hsplit : 8 * (n / 8) + n % 8 = n := Nat.div_add_mod n 8
    have hi : n / 8 < (packCoilBits values bc).length := by
      rw [packCoilBits_length]
      omega
    rw [← hsplit, unpackBits_getD _ _ _ hi (Nat.mod_lt _ (by norm_num)),
      packCoilBits_testBit values bc hq8 _ _ (Nat.mod_lt _ (by norm_num)), hsplit]
    simp [hn]
  · have hto : ((unpackBits (packCoilBits values bc)).take values.length).length ≤ n := by
      rw [List.length_take, unpackBits_length, packCoilBits_length]
      omega
    rw [List.getElem?_eq_none hto, List.getElem?_eq_none (by omega)]

/-- Witness for C7 at `id = 1`, `addr = 0x10`, `values = [true, false, true]`
(the spec's S4 scenario). -/
theorem writeMultipleCoils_roundtrip_witness :
    (buildWriteMultipleCoils 1 0x10 [true, false, true]).map
        (fun frame => (unpackBits ((frame.drop 7).take 1)).take 3)
      = .ok [true, false, true] :=
  writeMultipleCoils_roundtrip 1 0x10 [true, false, true] (by decide) (by decide)

end ModbusWS
